import Mathlib

/-!
Verification of the download orchestrator in `src/music-api/api/server.py`.

The program is a single FastAPI endpoint: it validates a quality selector,
builds extraction options for the `yt_dlp` library, runs the blocking download
in a worker thread, resolves the produced file in the temp directory by a
unique-identifier prefix, returns the file, and schedules a deferred cleanup.

The embedding below models the environment-dependent pieces (the extraction
call, the temp-directory listing, the filesystem acted on by `cleanup_file`)
as explicit parameters, and translates the program's own logic faithfully.
-/

namespace MusicApi

/-- Models `tempfile.gettempdir()` (the module-level `TEMP_DIR` of `server.py`),
fixed here to the usual POSIX value. -/
def TEMP_DIR : String := "/tmp"

/-- Models `os.path.join(dir, name)` for a relative `name`. -/
def os_path_join (dir name : String) : String := dir ++ "/" ++ name

/-- The four admissible values of the `quality` query parameter
(`Literal['mp3_320', 'mp3_192', 'm4a', 'flac']` in `DownloadRequest`);
framework validation rejects everything else before the handler runs. -/
inductive Quality where
  | mp3_320
  | mp3_192
  | m4a
  | flac
deriving DecidableEq, Repr

/-- The string carried by each admitted quality literal. -/
def qualityStr : Quality → String
  | .mp3_320 => "mp3_320"
  | .mp3_192 => "mp3_192"
  | .m4a => "m4a"
  | .flac => "flac"

/-- One entry of a `postprocessors` list in `QUALITY_SETTINGS`
(`key`, `preferredcodec`, and the optional `preferredquality`). -/
structure PostProcessor where
  key : String
  preferredcodec : String
  preferredquality : Option String
deriving DecidableEq, Repr

/-- One value of the `QUALITY_SETTINGS` dictionary: the mandatory `ext` key plus
the optional `postprocessors` and `format` keys. -/
structure QualitySetting where
  ext : String
  postprocessors : Option (List PostProcessor)
  format : Option String
deriving DecidableEq, Repr

/-- The `QUALITY_SETTINGS` dictionary of `download_music`, as an association list
keyed by the quality string, in source order. -/
def QUALITY_SETTINGS : List (String × QualitySetting) :=
  [ ("mp3_320", ⟨"mp3", some [⟨"FFmpegExtractAudio", "mp3", some "320"⟩], none⟩),
    ("mp3_192", ⟨"mp3", some [⟨"FFmpegExtractAudio", "mp3", some "192"⟩], none⟩),
    ("m4a", ⟨"m4a", none, some "bestaudio[ext=m4a]/best"⟩),
    ("flac", ⟨"flac", some [⟨"FFmpegExtractAudio", "flac", none⟩], none⟩) ]

/-- Models Python `dict.get(k)`: the binding of the key if present, else `None`. -/
def dict_get (d : List (String × QualitySetting)) (k : String) : Option QualitySetting :=
  (d.find? (fun kv => kv.1 == k)).map (fun kv => kv.2)

/-- The `ydl_opts` options dictionary passed to the extraction library;
`player_client` stands for the nested `extractor_args.youtube.player_client`. -/
structure YdlOpts where
  quiet : Bool
  no_warnings : Bool
  outtmpl : String
  nocheckcertificate : Bool
  format : String
  postprocessors : List PostProcessor
  player_client : String
deriving DecidableEq, Repr

/-- Construction of `ydl_opts` in `download_music` from the request's unique
identifier and the looked-up quality setting. -/
def build_ydl_opts (temp_id : String) (setting : QualitySetting) : YdlOpts where
  quiet := true
  no_warnings := true
  outtmpl := os_path_join TEMP_DIR (temp_id ++ ".%(ext)s")
  nocheckcertificate := true
  format := setting.format.getD "bestaudio/best"
  postprocessors := setting.postprocessors.getD []
  player_client := "default"

/-- Models Python `f.startswith(pre)` on strings viewed as character sequences. -/
def startswith (f pre : String) : Bool := pre.data.isPrefixOf f.data

/-- Models `title.replace('/', '_')` in `do_download`: the pattern is a single
character, so occurrence replacement is a character map. -/
def sanitizeTitle (t : String) : String :=
  String.mk (t.data.map (fun c => if c = '/' then '_' else c))

/-- Abstraction of one run of `ydl.extract_info(url, download=True)`: the call
either raises `yt_dlp.utils.DownloadError`, raises some other exception, or
returns an info dictionary whose `title` key may be absent. -/
inductive ExtractOutcome where
  | downloadError (msg : String)
  | otherError (msg : String)
  | success (title : Option String)
deriving DecidableEq, Repr

/-- The exceptions that can escape `do_download`: the `ValueError` it raises for
a `DownloadError`, the defensive `FileNotFoundError`, or a re-raised other
exception. -/
inductive DlExc where
  | valueError (msg : String)
  | fileNotFoundError (msg : String)
  | otherExc (msg : String)
deriving DecidableEq, Repr

/-- The constant `ValueError` message raised in `do_download` when the
extraction library reports a `DownloadError`. -/
def URL_ERROR_MSG : String :=
  "No se pudo procesar la URL. Puede ser inválida o el video no está disponible."

/-- The constant message of the defensive `FileNotFoundError` in `do_download`. -/
def FILE_NOT_FOUND_MSG : String :=
  "No se encontró el archivo procesado en el directorio temporal."

/-- The generic detail string of the 500 `HTTPException` in `download_music`. -/
def INTERNAL_ERROR_MSG : String := "Ocurrió un error interno en el servidor."

/-- The worker function `do_download` nested in `download_music`.
`outcome` abstracts the extraction call and `listing` the post-call
`os.listdir(TEMP_DIR)`. On success it sanitizes the title, scans the listing
for the first entry starting with `temp_id` and returns that path with the
title; otherwise it raises: a `DownloadError` becomes a `ValueError` with a
generic message, while the `FileNotFoundError` and any other exception
propagate unchanged. -/
def do_download (temp_id : String) (outcome : ExtractOutcome) (listing : List String) :
    Except DlExc (String × String) :=
  match outcome with
  | .downloadError _ => .error (.valueError URL_ERROR_MSG)
  | .otherError m => .error (.otherExc m)
  | .success title =>
    let t := sanitizeTitle (title.getD "audio")
    match listing.find? (fun f => startswith f temp_id) with
    | some f => .ok (os_path_join TEMP_DIR f, t)
    | none => .error (.fileNotFoundError FILE_NOT_FOUND_MSG)

/-- The HTTP-level outcome of `/download`: a `FileResponse` (path, download
filename, media type) or an `HTTPException` (status code, detail). -/
inductive Response where
  | file (path : String) (filename : String) (media_type : String)
  | httpError (status : Nat) (detail : String)
deriving DecidableEq, Repr

/-- The observable result of one `/download` call: the response plus the
background cleanup tasks registered via `background_tasks.add_task`. -/
structure DownloadResult where
  response : Response
  background : List String
deriving DecidableEq, Repr

/-- The `/download` handler `download_music`, given the validated quality, the
generated `temp_id`, and the abstracted extraction outcome and temp-directory
listing. `none` models the uncaught `TypeError` of `setting['ext']` when the
dictionary lookup returns `None` (that access sits before the `try` block).
A `ValueError` from the worker becomes a 400 with the error's own message;
every other exception becomes a 500 with the generic detail. -/
def download_music (quality : Quality) (temp_id : String)
    (outcome : ExtractOutcome) (listing : List String) : Option DownloadResult :=
  match dict_get QUALITY_SETTINGS (qualityStr quality) with
  | none => none
  | some setting =>
    let ext := setting.ext
    let _opts := build_ydl_opts temp_id setting
    match do_download temp_id outcome listing with
    | .ok (final_path, title) =>
      some { response := .file final_path (title ++ "." ++ ext) "application/octet-stream",
             background := [final_path] }
    | .error (.valueError m) =>
      some { response := .httpError 400 m, background := [] }
    | .error (.fileNotFoundError _) =>
      some { response := .httpError 500 INTERNAL_ERROR_MSG, background := [] }
    | .error (.otherExc _) =>
      some { response := .httpError 500 INTERNAL_ERROR_MSG, background := [] }

/-- Filesystem abstraction for `cleanup_file`: the existing paths, and the paths
at which `os.remove` would raise `OSError` (e.g. for lack of permission). -/
structure FSState where
  files : List String
  failing : List String
deriving DecidableEq, Repr

/-- Models `os.path.exists`. -/
def os_path_exists (fs : FSState) (p : String) : Bool := fs.files.contains p

/-- Models `os.remove`: raises `OSError` at a failing path, otherwise deletes
the path from the filesystem. -/
def os_remove (fs : FSState) (p : String) : Except String FSState :=
  if fs.failing.contains p then .error "OSError"
  else .ok { fs with files := fs.files.filter (fun q => !(q == p)) }

/-- The deferred cleanup task `cleanup_file`: removes the path if it exists,
catching (and only logging) any `OSError`. Its total return type records that
it always returns normally with the resulting filesystem. -/
def cleanup_file (fs : FSState) (path : String) : FSState :=
  if os_path_exists fs path then
    match os_remove fs path with
    | .ok fs2 => fs2
    | .error _ => fs
  else fs

/-! ## Helper lemmas -/

/-- The sanitized title never contains the path separator. -/
theorem sanitize_no_slash (t : String) : ('/' : Char) ∉ (sanitizeTitle t).data := by
  intro hmem
  simp only [sanitizeTitle] at hmem
  rw [List.mem_map] at hmem
  obtain ⟨c, _, hc⟩ := hmem
  by_cases h : c = '/'
  · rw [if_pos h] at hc
    exact absurd hc (by decide)
  · rw [if_neg h] at hc
    exact h hc

/-- `cleanup_file` touches no path other than its argument. -/
theorem mem_cleanup_of_ne (fs : FSState) (p q : String) (h : q ≠ p) :
    q ∈ (cleanup_file fs p).files ↔ q ∈ fs.files := by
  unfold cleanup_file
  by_cases hex : os_path_exists fs p
  · rw [if_pos hex]
    by_cases hfail : p ∈ fs.failing
    · simp [os_remove, hfail]
    · simp [os_remove, hfail, List.mem_filter, h]
  · rw [if_neg hex]

/-- `startswith` is the prefix relation on the character sequences. -/
theorem startswith_iff (f pre : String) :
    startswith f pre = true ↔ pre.data <+: f.data := by
  simp [startswith]

/-- The row of `QUALITY_SETTINGS` selected by each admitted quality. -/
def settingOf : Quality → QualitySetting
  | .mp3_320 => ⟨"mp3", some [⟨"FFmpegExtractAudio", "mp3", some "320"⟩], none⟩
  | .mp3_192 => ⟨"mp3", some [⟨"FFmpegExtractAudio", "mp3", some "192"⟩], none⟩
  | .m4a => ⟨"m4a", none, some "bestaudio[ext=m4a]/best"⟩
  | .flac => ⟨"flac", some [⟨"FFmpegExtractAudio", "flac", none⟩], none⟩

/-- The profile lookup evaluates, for each admitted quality, to its row. -/
theorem dict_get_settingOf (q : Quality) :
    dict_get QUALITY_SETTINGS (qualityStr q) = some (settingOf q) := by
  cases q <;> rfl

/-- Closed form of the handler once the worker's outcome is known. -/
theorem download_music_eq (q : Quality) (tid : String) (o : ExtractOutcome)
    (l : List String) :
    download_music q tid o l = some
      (match do_download tid o l with
       | .ok (path, ttl) =>
         ⟨.file path (ttl ++ "." ++ (settingOf q).ext) "application/octet-stream", [path]⟩
       | .error (.valueError m) => ⟨.httpError 400 m, []⟩
       | .error (.fileNotFoundError _) => ⟨.httpError 500 INTERNAL_ERROR_MSG, []⟩
       | .error (.otherExc _) => ⟨.httpError 500 INTERNAL_ERROR_MSG, []⟩) := by
  cases hdo : do_download tid o l with
  | ok pt =>
    obtain ⟨path, ttl⟩ := pt
    cases q <;> (unfold download_music; rw [hdo]; rfl)
  | error e =>
    cases e <;> cases q <;> (unfold download_music; rw [hdo]; rfl)

/-- Inversion of a successful worker run: the returned title is the sanitized
extracted title, and the returned path is the first identifier-prefixed entry
of the listing. -/
theorem do_download_ok_inv (tid : String) (title : Option String)
    (listing : List String) (path ttl : String)
    (h : do_download tid (.success title) listing = .ok (path, ttl)) :
    ttl = sanitizeTitle (title.getD "audio") ∧
      ∃ f, listing.find? (fun g => startswith g tid) = some f ∧
        path = os_path_join TEMP_DIR f := by
  simp only [do_download] at h
  cases hfind : listing.find? (fun g => startswith g tid) with
  | some f =>
    rw [hfind] at h
    simp only [Except.ok.injEq, Prod.mk.injEq] at h
    exact ⟨h.2.symm, f, rfl, h.1.symm⟩
  | none =>
    rw [hfind] at h
    exact absurd h (by simp)

/-! ## Claim theorems -/

/-- C1: when the extraction library raises its download-error condition, the
`/download` handler answers with a 400-classified error whose detail is the
non-empty generic message, schedules no cleanup, and does not produce a 500. -/
theorem extraction_error_yields_400 :
    ∀ (q : Quality) (tid msg : String) (listing : List String),
      download_music q tid (.downloadError msg) listing =
        some ⟨.httpError 400 URL_ERROR_MSG, []⟩ ∧ URL_ERROR_MSG ≠ "" := by
  intro q tid msg listing
  refine ⟨?_, by decide⟩
  cases q <;> rfl

/-- C2: each of the four quality selectors resolves in `QUALITY_SETTINGS` to a
profile with the expected extension (`mp3`, `mp3`, `m4a`, `flac`), and the
`ydl_opts` built from any setting always carry `nocheckcertificate` and the
`player_client` client-identification hint. -/
theorem quality_profiles_and_opts :
    (∀ q : Quality, ∃ s, dict_get QUALITY_SETTINGS (qualityStr q) = some s ∧
        s.ext = (match q with
                 | .mp3_320 => "mp3"
                 | .mp3_192 => "mp3"
                 | .m4a => "m4a"
                 | .flac => "flac")) ∧
    (∀ (tid : String) (s : QualitySetting),
        (build_ydl_opts tid s).nocheckcertificate = true ∧
        (build_ydl_opts tid s).player_client = "default") := by
  refine ⟨fun q => ?_, fun tid s => ⟨rfl, rfl⟩⟩
  cases q <;> exact ⟨_, rfl, rfl⟩

/-- C6: if `os.remove` would raise an `OSError` at the path, `cleanup_file`
still returns normally, with the filesystem unchanged: the failure is not
propagated to the caller. -/
theorem cleanup_never_propagates (fs : FSState) (path e : String)
    (h : os_remove fs path = .error e) : cleanup_file fs path = fs := by
  unfold cleanup_file
  by_cases hex : os_path_exists fs path
  · rw [if_pos hex, h]
  · rw [if_neg hex]

/-- C6 witness: a path that exists but whose removal fails. -/
theorem cleanup_never_propagates_witness :
    cleanup_file ⟨["a"], ["a"]⟩ "a" = ⟨["a"], ["a"]⟩ :=
  cleanup_never_propagates ⟨["a"], ["a"]⟩ "a" "OSError" rfl

/-- C7: for every quality admitted by input validation the static profile
lookup succeeds, so the handler never reaches the branch in which the lookup
yields no profile (the `None`-subscript crash modelled by `none`). -/
theorem validated_quality_lookup_total :
    (∀ q : Quality, (dict_get QUALITY_SETTINGS (qualityStr q)).isSome = true) ∧
    (∀ (q : Quality) (tid : String) (o : ExtractOutcome) (l : List String),
      (download_music q tid o l).isSome = true) := by
  constructor
  · intro q
    cases q <;> rfl
  · intro q tid o l
    unfold download_music
    rw [dict_get_settingOf q]
    cases hdo : do_download tid o l with
    | ok pt => rfl
    | error e => cases e <;> rfl

/-- C10: on a path that does not exist, `cleanup_file` performs no removal and
returns the filesystem unchanged, so a second run has the same effect as one. -/
theorem cleanup_idempotent_on_missing (fs : FSState) (p : String)
    (h : os_path_exists fs p = false) :
    cleanup_file fs p = fs ∧ cleanup_file (cleanup_file fs p) p = cleanup_file fs p := by
  have h1 : cleanup_file fs p = fs := by
    unfold cleanup_file
    rw [h]
    rfl
  exact ⟨h1, by rw [h1, h1]⟩

/-- C10 witness: the empty filesystem and an arbitrary path. -/
theorem cleanup_idempotent_on_missing_witness :
    cleanup_file ⟨[], []⟩ "a" = ⟨[], []⟩ ∧
      cleanup_file (cleanup_file ⟨[], []⟩ "a") "a" = cleanup_file ⟨[], []⟩ "a" :=
  cleanup_idempotent_on_missing ⟨[], []⟩ "a" rfl

/-- C3: when extraction succeeds but no temp-directory entry starts with the
request's identifier, the worker raises the file-resolution error and the
handler answers with the 500-classified internal error, a status distinct from
the 400 client-data classification. -/
theorem missing_file_yields_500 (q : Quality) (tid : String) (title : Option String)
    (listing : List String) (h : ∀ f ∈ listing, startswith f tid = false) :
    do_download tid (.success title) listing =
        .error (.fileNotFoundError FILE_NOT_FOUND_MSG) ∧
      download_music q tid (.success title) listing =
        some ⟨.httpError 500 INTERNAL_ERROR_MSG, []⟩ ∧ (500 : Nat) ≠ 400 := by
  have hfind : listing.find? (fun f => startswith f tid) = none := by
    rw [List.find?_eq_none]
    intro x hx
    simp [h x hx]
  have hdo : do_download tid (.success title) listing =
      .error (.fileNotFoundError FILE_NOT_FOUND_MSG) := by
    simp only [do_download]
    rw [hfind]
  refine ⟨hdo, ?_, by decide⟩
  rw [download_music_eq, hdo]

/-- C3 witness: the empty listing. -/
theorem missing_file_yields_500_witness :
    do_download "abc" (.success (some "t")) [] =
        .error (.fileNotFoundError FILE_NOT_FOUND_MSG) ∧
      download_music .flac "abc" (.success (some "t")) [] =
        some ⟨.httpError 500 INTERNAL_ERROR_MSG, []⟩ ∧ (500 : Nat) ≠ 400 :=
  missing_file_yields_500 .flac "abc" (some "t") [] (by simp)

/-- C4: whenever the handler answers with a file, its download filename is the
sanitized title-derived stem followed by a dot and an extension, and that stem
contains no path-separator character, whatever the extracted title was. -/
theorem success_filename_stem_no_separator (q : Quality) (tid : String)
    (title : Option String) (listing : List String) (r : DownloadResult)
    (p fn mt : String)
    (h1 : download_music q tid (.success title) listing = some r)
    (h2 : r.response = .file p fn mt) :
    (∃ e, fn = sanitizeTitle (title.getD "audio") ++ "." ++ e) ∧
      ('/' : Char) ∉ (sanitizeTitle (title.getD "audio")).data := by
  refine ⟨?_, sanitize_no_slash _⟩
  rw [download_music_eq] at h1
  cases hdo : do_download tid (.success title) listing with
  | ok pt =>
    obtain ⟨path, ttl⟩ := pt
    rw [hdo] at h1
    simp only [Option.some.injEq] at h1
    subst h1
    injection h2 with hpath hfn hmt
    obtain ⟨httl, -⟩ := do_download_ok_inv tid title listing path ttl hdo
    exact ⟨(settingOf q).ext, by rw [← hfn, httl]⟩
  | error e =>
    rw [hdo] at h1
    cases e <;> (simp only [Option.some.injEq] at h1; subst h1; simp at h2)

/-- C4 witness: a title containing a path separator. -/
theorem success_filename_stem_no_separator_witness :
    (∃ e, "a_b.m4a" = sanitizeTitle ((some "a/b").getD "audio") ++ "." ++ e) ∧
      ('/' : Char) ∉ (sanitizeTitle ((some "a/b").getD "audio")).data :=
  success_filename_stem_no_separator .m4a "u1" (some "a/b") ["u1.m4a"]
    ⟨.file "/tmp/u1.m4a" "a_b.m4a" "application/octet-stream", ["/tmp/u1.m4a"]⟩
    "/tmp/u1.m4a" "a_b.m4a" "application/octet-stream" rfl rfl

/-- C5: whenever the handler answers with a file, the response's media type is
the generic binary type and its download filename is exactly the sanitized
title, a dot, and the selected quality profile's extension. -/
theorem success_response_filename_and_media_type (q : Quality) (tid : String)
    (title : Option String) (listing : List String) (r : DownloadResult)
    (p fn mt : String)
    (h1 : download_music q tid (.success title) listing = some r)
    (h2 : r.response = .file p fn mt) :
    mt = "application/octet-stream" ∧
      ∃ s, dict_get QUALITY_SETTINGS (qualityStr q) = some s ∧
        fn = sanitizeTitle (title.getD "audio") ++ "." ++ s.ext := by
  rw [download_music_eq] at h1
  cases hdo : do_download tid (.success title) listing with
  | ok pt =>
    obtain ⟨path, ttl⟩ := pt
    rw [hdo] at h1
    simp only [Option.some.injEq] at h1
    subst h1
    injection h2 with hpath hfn hmt
    obtain ⟨httl, -⟩ := do_download_ok_inv tid title listing path ttl hdo
    exact ⟨hmt.symm, settingOf q, dict_get_settingOf q, by rw [← hfn, httl]⟩
  | error e =>
    rw [hdo] at h1
    cases e <;> (simp only [Option.some.injEq] at h1; subst h1; simp at h2)

/-- C5 witness: a concrete successful flac request. -/
theorem success_response_filename_and_media_type_witness :
    "application/octet-stream" = "application/octet-stream" ∧
      ∃ s, dict_get QUALITY_SETTINGS (qualityStr .flac) = some s ∧
        "x_y.flac" = sanitizeTitle ((some "x/y").getD "audio") ++ "." ++ s.ext :=
  success_response_filename_and_media_type .flac "u2" (some "x/y") ["u2.flac"]
    ⟨.file "/tmp/u2.flac" "x_y.flac" "application/octet-stream", ["/tmp/u2.flac"]⟩
    "/tmp/u2.flac" "x_y.flac" "application/octet-stream" rfl rfl

/-- C8: whenever the listing contains at least one entry starting with the
request's identifier, the worker does not fail: it returns the path of the
first such entry in listing order together with the sanitized title. -/
theorem first_match_returned (tid : String) (title : Option String)
    (listing : List String) (h : ∃ f ∈ listing, startswith f tid = true) :
    ∃ f, listing.find? (fun g => startswith g tid) = some f ∧
      do_download tid (.success title) listing =
        .ok (os_path_join TEMP_DIR f, sanitizeTitle (title.getD "audio")) := by
  have hsome : (listing.find? (fun g => startswith g tid)).isSome := by
    rw [List.find?_isSome]
    obtain ⟨f, hf, hs⟩ := h
    exact ⟨f, hf, hs⟩
  obtain ⟨f, hf⟩ := Option.isSome_iff_exists.mp hsome
  refine ⟨f, hf, ?_⟩
  simp only [do_download]
  rw [hf]

/-- C8 witness: a listing with one matching entry. -/
theorem first_match_returned_witness :
    ∃ f, (["u3.mp3"] : List String).find? (fun g => startswith g "u3") = some f ∧
      do_download "u3" (.success (some "song")) ["u3.mp3"] =
        .ok (os_path_join TEMP_DIR f, sanitizeTitle ((some "song").getD "audio")) :=
  first_match_returned "u3" (some "song") ["u3.mp3"] (by decide)

/-- C9: distinct equal-length identifiers never collide: a filename carrying
one identifier's prefix never carries the other's, the two resolved files are
distinct, and cleaning up one request's file leaves the other's untouched. -/
theorem distinct_ids_no_collision (tid1 tid2 f1 f2 : String)
    (hne : tid1 ≠ tid2) (hlen : tid1.length = tid2.length)
    (h1 : startswith f1 tid1 = true) (h2 : startswith f2 tid2 = true) :
    startswith f1 tid2 = false ∧ f1 ≠ f2 ∧
      ∀ fs : FSState, f2 ∈ (cleanup_file fs f1).files ↔ f2 ∈ fs.files := by
  have hp1 : tid1.data <+: f1.data := (startswith_iff f1 tid1).mp h1
  have hdlen : tid1.data.length = tid2.data.length := hlen
  have key : startswith f1 tid2 = false := by
    cases hb : startswith f1 tid2 with
    | false => rfl
    | true =>
      have hp2 : tid2.data <+: f1.data := (startswith_iff f1 tid2).mp hb
      have e1 : tid1.data = f1.data.take tid1.data.length :=
        List.prefix_iff_eq_take.mp hp1
      have e2 : tid2.data = f1.data.take tid2.data.length :=
        List.prefix_iff_eq_take.mp hp2
      have : tid1.data = tid2.data := by
        rw [e1, hdlen]
        exact e2.symm
      exact absurd (String.ext this) hne
  have hne12 : f1 ≠ f2 := by
    intro he
    have hcol : startswith f1 tid2 = true := by
      rw [he]
      exact h2
    rw [key] at hcol
    exact absurd hcol (by decide)
  exact ⟨key, hne12, fun fs => mem_cleanup_of_ne fs f1 f2 (Ne.symm hne12)⟩

/-- C9 witness: two distinct identifiers of equal length and their files. -/
theorem distinct_ids_no_collision_witness :
    startswith "aa.mp3" "ab" = false ∧ "aa.mp3" ≠ "ab.mp3" ∧
      ("ab.mp3" ∈ (cleanup_file ⟨["aa.mp3", "ab.mp3"], []⟩ "aa.mp3").files ↔
        "ab.mp3" ∈ (FSState.mk ["aa.mp3", "ab.mp3"] []).files) :=
  have h := distinct_ids_no_collision "aa" "ab" "aa.mp3" "ab.mp3"
    (by decide) rfl (by decide) (by decide)
  ⟨h.1, h.2.1, h.2.2 ⟨["aa.mp3", "ab.mp3"], []⟩⟩

end MusicApi
